import Mathlib

/-!
Verification of the `weakai` gradient-computation core: the `ConvGrowLayer`
index-remapping layer (`convgrow.go`) and the batch-gradient engine with its
reusable gradient-buffer cache (`neuralnet/batcher.go`).

Floating-point values are modelled as rationals: none of the verified
properties depends on rounding behaviour, only on which values are read,
written, copied and summed.
-/

namespace WeakAI

/-! ## Tensor3: 3-D array with flat backing storage

From the repository's `Tensor3` data model: `{Width, Height, Depth, Data}` with
`len(Data) = Width*Height*Depth` and element `(x,y,z)` stored at flat offset
`(y*Width+x)*Depth + z`. -/

structure Tensor3 where
  Width : Nat
  Height : Nat
  Depth : Nat
  Data : List ℚ
deriving DecidableEq, Repr

/-- Flat offset of coordinate `(x,y,z)`: `(y*Width+x)*Depth + z`. -/
def Tensor3.flatIndex (t : Tensor3) (x y z : Nat) : Nat :=
  (y * t.Width + x) * t.Depth + z

/-- `Tensor3.Get(x,y,z)`: read the element at the flat offset. -/
def Tensor3.get (t : Tensor3) (x y z : Nat) : ℚ :=
  t.Data.getD (t.flatIndex x y z) 0

/-- `Tensor3.Set(x,y,z,v)`: write the element at the flat offset. -/
def Tensor3.set (t : Tensor3) (x y z : Nat) (v : ℚ) : Tensor3 :=
  { t with Data := t.Data.set (t.flatIndex x y z) v }

/-- `NewTensor3(w,h,d)`: zero-filled tensor. -/
def NewTensor3 (w h d : Nat) : Tensor3 :=
  { Width := w, Height := h, Depth := d, Data := List.replicate (w * h * d) 0 }

/-! ## Loop skeleton

`forN n f a` runs `f` on `a` for indices `0, 1, …, n-1` in increasing order,
the shape of a Go `for i := 0; i < n; i++` loop. -/

def forN {α : Type} (n : Nat) (f : Nat → α → α) (a : α) : α :=
  match n with
  | 0 => a
  | m + 1 => f m (forN m f a)

/-- The triple loop shared by `PropagateForward` and `PropagateBackward`
(lines 126–157 of the ConvGrowLayer source): iterate `y` over `[0,H)`,
`x` over `[0,W)`, `z` over `[0,D)`, and at each step write value `val x y z`
into cell `tgt x y z` of the accumulating tensor. -/
def loop3 (H W D : Nat) (tgt : Nat → Nat → Nat → Nat × Nat × Nat)
    (val : Nat → Nat → Nat → ℚ) (t0 : Tensor3) : Tensor3 :=
  forN H (fun y ty =>
    forN W (fun x tx =>
      forN D (fun z tz =>
        tz.set (tgt x y z).1 (tgt x y z).2.1 (tgt x y z).2.2 (val x y z)) tx) ty) t0

/-- Flat offset, in tensor `t0`, of the cell that `tgt` maps `(x,y,z)` to.
Proof-side abbreviation used to state properties of `loop3`. -/
def tgtIdx (t0 : Tensor3) (tgt : Nat → Nat → Nat → Nat × Nat × Nat) (x y z : Nat) : Nat :=
  t0.flatIndex (tgt x y z).1 (tgt x y z).2.1 (tgt x y z).2.2

/-- The innermost (`z`) loop of `loop3`, for fixed `x` and `y`. -/
def zLoop (D : Nat) (tgt : Nat → Nat → Nat → Nat × Nat × Nat)
    (val : Nat → Nat → Nat → ℚ) (x y : Nat) (t : Tensor3) : Tensor3 :=
  forN D (fun z tz =>
    tz.set (tgt x y z).1 (tgt x y z).2.1 (tgt x y z).2.2 (val x y z)) t

/-- The middle (`x`) loop of `loop3`, for fixed `y`. -/
def xLoop (W D : Nat) (tgt : Nat → Nat → Nat → Nat × Nat × Nat)
    (val : Nat → Nat → Nat → ℚ) (y : Nat) (t : Tensor3) : Tensor3 :=
  forN W (fun x tx => zLoop D tgt val x y tx) t

/-! ## ConvGrowLayer: value-level model

From `ConvGrowLayer` in the source (lines 50–58): `output` is the upsampled
output tensor, `downstream` the caller-supplied downstream-gradient tensor,
`convOutput` the output tensor of the inner base convolution layer
(`c.convLayer.output`), `convDownstream` the gradient buffer wired as the
downstream-gradient slot of the inner layer, and `inverseStride` the
upsampling factor. The inner base convolution layer itself is an external
collaborator; only its output tensor and its gradient buffer appear here. -/

structure ConvGrowLayer where
  output : Tensor3
  downstream : Tensor3
  convOutput : Tensor3
  convDownstream : Tensor3
  inverseStride : Nat
deriving DecidableEq, Repr

/-- `ConvGrowLayer.PropagateForward` (source lines 126–141), with the inner
forward pass (line 127, external base convolution) held fixed: for every
output coordinate, copy
`convOutput.Get(x / inverseStride, y / inverseStride, internalOffset + z)`
into `output.Set(x, y, z, ·)` where
`internalOffset = ((x % inverseStride) + inverseStride*(y % inverseStride)) * output.Depth`. -/
def ConvGrowLayer.PropagateForward (c : ConvGrowLayer) : ConvGrowLayer :=
  let out :=
    loop3 c.output.Height c.output.Width c.output.Depth
      (fun x y z => (x, y, z))
      (fun x y z => c.convOutput.get (x / c.inverseStride) (y / c.inverseStride)
        (((x % c.inverseStride) + c.inverseStride * (y % c.inverseStride)) *
          c.output.Depth + z))
      c.output
  { c with output := out }

/-- `ConvGrowLayer.PropagateBackward` (source lines 143–157), up to the final
delegation to the inner layer (line 156, external): scatter
`downstream.Get(x,y,z)` into
`convDownstream.Set(x / inverseStride, y / inverseStride, internalOffset + z, ·)`. -/
def ConvGrowLayer.PropagateBackward (c : ConvGrowLayer) : ConvGrowLayer :=
  let cd :=
    loop3 c.output.Height c.output.Width c.output.Depth
      (fun x y z => (x / c.inverseStride, y / c.inverseStride,
        ((x % c.inverseStride) + c.inverseStride * (y % c.inverseStride)) *
          c.output.Depth + z))
      (fun x y z => c.downstream.get x y z)
      c.convDownstream
  { c with convDownstream := cd }

/-- `ConvGrowLayer.SetDownstreamGradient` (source lines 179–190): reject a
buffer whose length differs from the output data length, else install it as
the downstream tensor with the dimensions of the output. -/
def ConvGrowLayer.SetDownstreamGradient (c : ConvGrowLayer) (v : List ℚ) :
    Bool × ConvGrowLayer :=
  if v.length ≠ c.output.Data.length then (false, c)
  else (true, { c with downstream :=
    { Width := c.output.Width, Height := c.output.Height,
      Depth := c.output.Depth, Data := v } })

/-- Concrete layer for the spec scenario of §8: inner convolution output
`2×2×4` (`FilterCount = 1`, `inverseStride = 2`), wrapper output `4×4×1`,
inner channel-group values `[10,20,30,40]` at inner cell `(0,0)`. -/
def growExample : ConvGrowLayer :=
  { output := NewTensor3 4 4 1
    downstream := NewTensor3 4 4 1
    convOutput := { Width := 2, Height := 2, Depth := 4,
                    Data := [10, 20, 30, 40] ++ List.replicate 12 0 }
    convDownstream := NewTensor3 2 2 4
    inverseStride := 2 }

/-- Concrete layer for the backward round-trip: inner output `1×1×4`,
wrapper `2×2×1`, downstream gradient `[1,2,3,4]`. -/
def growExample2 : ConvGrowLayer :=
  { output := NewTensor3 2 2 1
    downstream := { Width := 2, Height := 2, Depth := 1, Data := [1, 2, 3, 4] }
    convOutput := NewTensor3 1 1 4
    convDownstream := NewTensor3 1 1 4
    inverseStride := 2 }

/-! ## Gradient cache and Batcher (`neuralnet/batcher.go`)

Gradient buffers are flat lists of rationals; `variables` is the total
parameter count of the fixed parameter list, so a fresh zero-initialized
buffer (`autofunc.NewGradient` / `autofunc.NewRGradient`, external
collaborators that the spec describes as zero-initialized and sized to the
parameter list) is `List.replicate variables 0`, and `Zero()` maps every
entry of a buffer to `0`. -/

/-- `gradientCache` (batcher.go lines 210–216): the two free pools of
reusable gradient buffers plus the parameter count sizing fresh buffers. -/
structure gradientCache where
  varCount : Nat
  gradients : List (List ℚ)
  rGradients : List (List ℚ)
deriving DecidableEq, Repr

/-- `newGradientCache` (lines 218–220): empty pools. -/
def newGradientCache (vars : Nat) : gradientCache :=
  { varCount := vars, gradients := [], rGradients := [] }

/-- The primitive steps of one `Alloc` call, used to record their order. -/
inductive AllocEvent where
  | lockGrads
  | unlockGrads
  | popGrad
  | newGradient
  | zeroGrad
deriving DecidableEq, Repr

/-- Order of the primitive steps of `gradientCache.Alloc` (lines 222–234):
lock; on an empty pool unlock then allocate fresh; otherwise pop inside the
critical section, unlock, and zero the popped buffer after the unlock. -/
def AllocTrace (g : gradientCache) : List AllocEvent :=
  if g.gradients.isEmpty then
    [.lockGrads, .unlockGrads, .newGradient]
  else
    [.lockGrads, .popGrad, .unlockGrads, .zeroGrad]

/-- `gradientCache.Alloc` (lines 222–234): on an empty pool return a fresh
zero buffer; otherwise pop the last pool entry (`g.gradients[len-1]`,
truncating by one) and zero its contents before returning it. -/
def gradientCache.Alloc (g : gradientCache) : List ℚ × gradientCache :=
  if g.gradients.isEmpty then
    (List.replicate g.varCount 0, g)
  else
    ((g.gradients.getLast?.getD []).map (fun _ => 0),
      { g with gradients := g.gradients.dropLast })

/-- Result of `AllocR`: Go panics on an out-of-range slice index. -/
inductive AllocRResult where
  | panics
  | ok (buf : List ℚ) (g : gradientCache)
deriving DecidableEq, Repr

/-- `gradientCache.AllocR` (lines 236–248). On a non-empty R pool the source
reads `res := g.rGradients[len(g.gradients)-1]` — the index is the length of
the PLAIN pool — then truncates the R pool by one and zeroes `res`. A Go
slice index that is negative (plain pool empty, `len-1 = -1`) or not below
`len(g.rGradients)` panics at run time. -/
def gradientCache.AllocR (g : gradientCache) : AllocRResult :=
  if g.rGradients.isEmpty then
    .ok (List.replicate g.varCount 0) g
  else if g.gradients.length = 0 then
    .panics
  else if h : g.gradients.length - 1 < g.rGradients.length then
    .ok ((g.rGradients.get ⟨g.gradients.length - 1, h⟩).map (fun _ => 0))
      { g with rGradients := g.rGradients.dropLast }
  else
    .panics

/-- `gradientCache.Free` (lines 250–254): push the buffer back on the pool. -/
def gradientCache.Free (g : gradientCache) (gr : List ℚ) : gradientCache :=
  { g with gradients := g.gradients ++ [gr] }

/-- `Batcher.Start` (lines 78–98) reduced to its observable effect: the
number of worker goroutines launched and whether the request/response
channels were installed. `gomaxprocs` stands for `runtime.GOMAXPROCS(0)`.
`routineCount` is capped at `gomaxprocs` (lines 79–82) and a count below 2
leaves the Batcher single-threaded (lines 83–85), but the launch loop at
line 89 iterates `b.batchSize` times. -/
def BatcherStart (batchSize gomaxprocs : Nat) : Nat × Bool :=
  let routineCount := if batchSize > gomaxprocs then gomaxprocs else batchSize
  if routineCount < 2 then (0, false)
  else (batchSize, true)

/-- `Batcher.fulfillRequest` (lines 192–208) on the plain path
(`req.RV == nil`): allocate a zeroed buffer from the cache and propagate the
per-sample gradient into it with seed 1. The learner and cost function are
external collaborators; `gradFn input expected` is the per-sample gradient
they accumulate into the zeroed buffer. -/
def fulfillRequest (gradFn : List ℚ → List ℚ → List ℚ)
    (g : gradientCache) (input expected : List ℚ) : List ℚ × gradientCache :=
  let r := g.Alloc
  (List.zipWith (· + ·) r.1 (gradFn input expected), r.2)

/-- The sequential accumulation loop of `Batcher.batch` (lines 149–164) after
the first sample: compute one gradient per sample, add it into the running
total (`gradOut.Add(resp.Grad)`), and free its buffer back to the cache. -/
def batchLoop (gradFn : List ℚ → List ℚ → List ℚ) :
    List (List ℚ × List ℚ) → List ℚ → gradientCache → List ℚ × gradientCache
  | [], acc, g => (acc, g)
  | s :: rest, acc, g =>
    let r := fulfillRequest gradFn g s.1 s.2
    batchLoop gradFn rest (List.zipWith (· + ·) acc r.1) (r.2.Free r.1)

/-- `Batcher.BatchGradient` on an unstarted Batcher (lines 121–124 and
137–164 with `b.reqChan == nil` and `rv == nil`): the first sample's
gradient becomes the running total and the remaining samples are
accumulated sequentially. An empty sample set leaves the `nil` gradient,
modelled as `[]`. The entry step that reclaims the previous result
(lines 139–144) only pushes buffers back on the pool and is absorbed in
the arbitrary starting cache state. -/
def BatchGradient (gradFn : List ℚ → List ℚ → List ℚ)
    (g : gradientCache) (samples : List (List ℚ × List ℚ)) :
    List ℚ × gradientCache :=
  match samples with
  | [] => ([], g)
  | s :: rest =>
    let r := fulfillRequest gradFn g s.1 s.2
    batchLoop gradFn rest r.1 r.2

/-! ## Construction of a ConvGrowLayer (`NewConvGrowLayer`, lines 60–79)

The base convolution layer code is not under src/: `NewConvLayer` and its
`SetDownstreamGradient` are modelled from the spec. Buffer identity (which
slots share backing storage) is tracked by giving every `NewTensor3` call a
fresh buffer id from an allocation state. -/

/-- Allocation state: each `NewTensor3` call yields a fresh buffer id. -/
structure AllocState where
  nextId : Nat
deriving DecidableEq, Repr

/-- A tensor held by reference: dimensions plus the id of its backing
buffer. Two tensors share backing storage exactly when their ids agree. -/
structure TensorRef where
  Width : Nat
  Height : Nat
  Depth : Nat
  dataRef : Nat
deriving DecidableEq, Repr

/-- `NewTensor3(w,h,d)` in the allocation model: a fresh buffer id. -/
def newTensorRef (w h d : Nat) (st : AllocState) : TensorRef × AllocState :=
  ({ Width := w, Height := h, Depth := d, dataRef := st.nextId },
    { nextId := st.nextId + 1 })

/-- Modelled from the spec: the base convolution layer configuration
(`ConvParams`, code not in src/). The spec fixes only what the wrapper uses:
the requested filter count, and that the spatial output size `N×M` of the
convolution is determined by the spatial configuration alone, independent of
the filter count. -/
structure ConvParams where
  FilterCount : Nat
  outWidth : Nat
  outHeight : Nat
deriving DecidableEq, Repr

/-- `ConvGrowParams` (source lines 29–32): ConvParams plus InverseStride. -/
structure ConvGrowParams where
  conv : ConvParams
  InverseStride : Nat
deriving DecidableEq, Repr

/-- Modelled from the spec: the base convolution layer (`ConvLayer`, code
not in src/), holding `filterCount` filters, an output tensor of depth equal
to the filter count, and a downstream-gradient slot. -/
structure ConvLayerRef where
  filterCount : Nat
  output : TensorRef
  downstreamRef : Option Nat
deriving DecidableEq, Repr

/-- Modelled from the spec: `NewConvLayer(p)` produces a layer with
`p.FilterCount` filters whose output has the configured spatial size and
depth `p.FilterCount`, and no downstream-gradient buffer installed yet. -/
def NewConvLayer (p : ConvParams) (st : AllocState) : ConvLayerRef × AllocState :=
  let r := newTensorRef p.outWidth p.outHeight p.FilterCount st
  ({ filterCount := p.FilterCount, output := r.1, downstreamRef := none }, r.2)

/-- Modelled from the spec: `ConvLayer.SetDownstreamGradient` rejects a
buffer whose length mismatches the output size, else installs it as the
downstream-gradient slot. `len` is the length of the supplied buffer. -/
def ConvLayerRef.SetDownstreamGradient (c : ConvLayerRef) (ref len : Nat) :
    Bool × ConvLayerRef :=
  if len ≠ c.output.Width * c.output.Height * c.output.Depth then (false, c)
  else (true, { c with downstreamRef := some ref })

/-- The wrapper layer in the allocation model. -/
structure ConvGrowLayerRef where
  output : TensorRef
  convLayer : ConvLayerRef
  convDownstream : TensorRef
  inverseStride : Nat
deriving DecidableEq, Repr

/-- `NewConvGrowLayer` (source lines 60–79): multiply the requested filter
count by `InverseStride²`, build the inner layer, allocate the upsampled
output `(inner.Width*s) × (inner.Height*s) × FilterCount` and a gradient
buffer shaped like the inner output, and wire that buffer as the inner
downstream-gradient slot. -/
def NewConvGrowLayer (p : ConvGrowParams) (st : AllocState) :
    ConvGrowLayerRef × AllocState :=
  let convParams : ConvParams :=
    { p.conv with FilterCount :=
        p.conv.FilterCount * (p.InverseStride * p.InverseStride) }
  let r1 := NewConvLayer convParams st
  let convLayer := r1.1
  let r2 := newTensorRef (convLayer.output.Width * p.InverseStride)
    (convLayer.output.Height * p.InverseStride) p.conv.FilterCount r1.2
  let r3 := newTensorRef convLayer.output.Width convLayer.output.Height
    convLayer.output.Depth r2.2
  let wired := convLayer.SetDownstreamGradient r3.1.dataRef
    (r3.1.Width * r3.1.Height * r3.1.Depth)
  ({ output := r2.1, convLayer := wired.2, convDownstream := r3.1,
     inverseStride := p.InverseStride }, r3.2)

/-! ## Serialization (`Serialize` lines 214–225, `DeserializeConvGrowLayer`
lines 81–110)

Bytes are naturals below 256. `DeserializeConvLayer` is code of this
repository that is not under src/, so the inner layer serialization is
modelled from the spec. -/

/-- Little-endian base-256 digits of the low 32 bits, as `binary.Write`
lays out a `uint32`. -/
def u32le (n : Nat) : List Nat :=
  [n % 256, n / 256 % 256, n / 65536 % 256, n / 16777216 % 256]

/-- `binary.Read` of a `uint32`: consume 4 bytes, little-endian; error
(`none`) on a truncated stream. -/
def readU32 : List Nat → Option (Nat × List Nat)
  | b0 :: b1 :: b2 :: b3 :: rest =>
    some (b0 + 256 * (b1 + 256 * (b2 + 256 * b3)), rest)
  | _ => none

/-- Modelled from the spec: the base convolution layer as touched by the
wrapper serialization (code not in src/): the filter count
(`len(convLayer.filters)`) and the spatial output dimensions. -/
structure ConvLayerS where
  filterCount : Nat
  outWidth : Nat
  outHeight : Nat
deriving DecidableEq, Repr

/-- Modelled from the spec: `ConvLayer.Serialize`, a self-round-tripping
byte stream; the model encodes the three fields as `uint32` values. -/
def serializeConvLayer (c : ConvLayerS) : List Nat :=
  u32le c.filterCount ++ u32le c.outWidth ++ u32le c.outHeight

/-- Modelled from the spec: `DeserializeConvLayer`, consuming the whole
remaining stream and failing with a decoding error on truncated or
malformed input. -/
def DeserializeConvLayer (bs : List Nat) : Option ConvLayerS :=
  match readU32 bs with
  | none => none
  | some (f, r1) =>
    match readU32 r1 with
    | none => none
    | some (w, r2) =>
      match readU32 r2 with
      | none => none
      | some (h, r3) =>
        if r3 = [] then some { filterCount := f, outWidth := w, outHeight := h }
        else none

/-- The wrapper fields that `Serialize`/`DeserializeConvGrowLayer` touch:
the stride, the inner layer, and the derived output depth (`FilterCount`). -/
structure ConvGrowS where
  inverseStride : Nat
  convLayer : ConvLayerS
  filterCount : Nat
deriving DecidableEq, Repr

/-- `ConvGrowLayer.Serialize` (source lines 214–225): a 4-byte little-endian
`uint32(c.inverseStride)` followed by the serialized inner layer. -/
def ConvGrowS.Serialize (c : ConvGrowS) : List Nat :=
  u32le c.inverseStride ++ serializeConvLayer c.convLayer

/-- Outcome of `DeserializeConvGrowLayer`: a decoding error, a Go run-time
panic, or a layer. -/
inductive GrowDeserResult where
  | err
  | panics
  | ok (l : ConvGrowS)
deriving DecidableEq, Repr

/-- `DeserializeConvGrowLayer` (source lines 81–110): read the `uint32`
stride, deserialize the inner layer from the remaining bytes (either step
failing is a decoding error), then compute
`filterCount := len(convLayer.filters) / int(inverseStride*inverseStride)`.
The multiplication is `uint32` arithmetic (wrapping modulo `2^32`) and the
division is unguarded: a zero divisor is a Go run-time panic. -/
def DeserializeConvGrowLayer (data : List Nat) : GrowDeserResult :=
  match readU32 data with
  | none => .err
  | some (inverseStride, rest) =>
    match DeserializeConvLayer rest with
    | none => .err
    | some convLayer =>
      let d := (inverseStride * inverseStride) % 4294967296
      if d = 0 then .panics
      else .ok { inverseStride := inverseStride, convLayer := convLayer,
                 filterCount := convLayer.filterCount / d }

/-! ### Basic list lemmas for `set`/`getD` -/

theorem getD_set_self {l : List ℚ} {i : Nat} (v : ℚ) (h : i < l.length) :
    (l.set i v).getD i 0 = v := by
  have := List.getElem?_set_eq_of_lt v h (l := l)
  simp [List.getD, List.getElem?_set_eq_of_lt, h]

theorem getD_set_ne {l : List ℚ} {i j : Nat} (v : ℚ) (h : i ≠ j) :
    (l.set i v).getD j 0 = l.getD j 0 := by
  simp [List.getD, List.getElem?_set_ne, h]

/-! ### Properties of `forN` and `loop3` -/

theorem forN_preserve {α : Type} (P : α → Prop) (f : Nat → α → α)
    (hf : ∀ i a, P a → P (f i a)) : ∀ n a, P a → P (forN n f a)
  | 0, _, h => h
  | m + 1, a, h => hf m _ (forN_preserve P f hf m a h)

/-- `loop3` preserves the dimensions and data length of the tensor. -/
theorem loop3_dims (H W D : Nat) (tgt : Nat → Nat → Nat → Nat × Nat × Nat)
    (val : Nat → Nat → Nat → ℚ) (t0 : Tensor3) :
    (loop3 H W D tgt val t0).Width = t0.Width ∧
    (loop3 H W D tgt val t0).Height = t0.Height ∧
    (loop3 H W D tgt val t0).Depth = t0.Depth ∧
    (loop3 H W D tgt val t0).Data.length = t0.Data.length := by
  refine forN_preserve
    (fun t => t.Width = t0.Width ∧ t.Height = t0.Height ∧ t.Depth = t0.Depth ∧
      t.Data.length = t0.Data.length) _ ?_ H t0 ⟨rfl, rfl, rfl, rfl⟩
  intro y ty hy
  refine forN_preserve
    (fun t => t.Width = t0.Width ∧ t.Height = t0.Height ∧ t.Depth = t0.Depth ∧
      t.Data.length = t0.Data.length) _ ?_ W ty hy
  intro x tx hx
  refine forN_preserve
    (fun t => t.Width = t0.Width ∧ t.Height = t0.Height ∧ t.Depth = t0.Depth ∧
      t.Data.length = t0.Data.length) _ ?_ D tx hx
  intro z tz hz
  simpa [Tensor3.set] using hz

/-- Generic specification of a `forN` loop whose iterations own disjoint sets
of flat indices: indices owned by no iteration are untouched, and the value
left at an index owned by iteration `i` satisfies the per-iteration
write relation `Rel i`. -/
theorem forN_spec (f : Nat → Tensor3 → Tensor3) (good : Tensor3 → Prop)
    (Own : Nat → Nat → Prop) (Rel : Nat → Nat → ℚ → Prop) :
    ∀ n : Nat,
    (∀ i, i < n → ∀ t, good t → good (f i t)) →
    (∀ i, i < n → ∀ t, good t → ∀ idx, ¬ Own i idx →
      (f i t).Data.getD idx 0 = t.Data.getD idx 0) →
    (∀ i, i < n → ∀ t, good t → ∀ idx, Own i idx →
      Rel i idx ((f i t).Data.getD idx 0)) →
    (∀ i, i < n → ∀ j, j < n → ∀ idx, Own i idx → Own j idx → i = j) →
    ∀ t, good t →
      good (forN n f t) ∧
      (∀ idx, (∀ i, i < n → ¬ Own i idx) →
        (forN n f t).Data.getD idx 0 = t.Data.getD idx 0) ∧
      (∀ i, i < n → ∀ idx, Own i idx →
        Rel i idx ((forN n f t).Data.getD idx 0)) := by
  intro n
  induction n with
  | zero =>
    intro _ _ _ _ t ht
    exact ⟨ht, fun _ _ => rfl, fun i hi => absurd hi (Nat.not_lt_zero i)⟩
  | succ m ih =>
    intro hgood hun hwr hdisj t ht
    obtain ⟨ihgood, ihun, ihwr⟩ := ih
      (fun i hi => hgood i (Nat.lt_succ_of_lt hi))
      (fun i hi => hun i (Nat.lt_succ_of_lt hi))
      (fun i hi => hwr i (Nat.lt_succ_of_lt hi))
      (fun i hi j hj => hdisj i (Nat.lt_succ_of_lt hi) j (Nat.lt_succ_of_lt hj))
      t ht
    have hstep : forN (m + 1) f t = f m (forN m f t) := rfl
    rw [hstep]
    refine ⟨hgood m (Nat.lt_succ_self m) _ ihgood, ?_, ?_⟩
    · intro idx hidx
      have h1 : (f m (forN m f t)).Data.getD idx 0 = (forN m f t).Data.getD idx 0 :=
        hun m (Nat.lt_succ_self m) _ ihgood idx (hidx m (Nat.lt_succ_self m))
      rw [h1]
      exact ihun idx (fun i hi => hidx i (Nat.lt_succ_of_lt hi))
    · intro i hi idx hOwn
      rcases lt_or_eq_of_le (Nat.lt_succ_iff.mp hi) with hlt | heq
      · have h1 : (f m (forN m f t)).Data.getD idx 0 = (forN m f t).Data.getD idx 0 := by
          apply hun m (Nat.lt_succ_self m) _ ihgood idx
          intro hOwnM
          have := hdisj i hi m (Nat.lt_succ_self m) idx hOwn hOwnM
          omega
        rw [h1]
        exact ihwr i hlt idx hOwn
      · subst heq
        exact hwr i (Nat.lt_succ_self i) _ ihgood idx hOwn

/-! ### Flat-index arithmetic -/

theorem flatIndex_congr {t t0 : Tensor3} (hW : t.Width = t0.Width)
    (hD : t.Depth = t0.Depth) (x y z : Nat) :
    t.flatIndex x y z = t0.flatIndex x y z := by
  simp [Tensor3.flatIndex, hW, hD]

theorem flatIndex_lt {W H D x y z : Nat} (hx : x < W) (hy : y < H) (hz : z < D) :
    (y * W + x) * D + z < W * H * D := by
  have h3 : y * W + x + 1 ≤ (y + 1) * W := by
    have hx1 : x + 1 ≤ W := hx
    calc y * W + x + 1 = y * W + (x + 1) := by omega
      _ ≤ y * W + W := by omega
      _ = (y + 1) * W := by ring
  have h2 : (y + 1) * W ≤ H * W := Nat.mul_le_mul_right W hy
  have h1 : y * W + x + 1 ≤ H * W := le_trans h3 h2
  calc (y * W + x) * D + z < (y * W + x) * D + D := by omega
    _ = (y * W + x + 1) * D := by ring
    _ ≤ (H * W) * D := Nat.mul_le_mul_right D h1
    _ = W * H * D := by ring

theorem flat_digits (D a z : Nat) (hz : z < D) :
    (a * D + z) % D = z ∧ (a * D + z) / D = a := by
  have hD : 0 < D := lt_of_le_of_lt (Nat.zero_le z) hz
  constructor
  · rw [Nat.mul_comm a D, Nat.mul_add_mod, Nat.mod_eq_of_lt hz]
  · rw [Nat.mul_comm a D, Nat.mul_add_div hD, Nat.div_eq_of_lt hz]
    omega

theorem flatIndex_inj {W D x x' y y' z z' : Nat} (hx : x < W) (hx' : x' < W)
    (hz : z < D) (hz' : z' < D)
    (heq : (y * W + x) * D + z = (y' * W + x') * D + z') :
    x = x' ∧ y = y' ∧ z = z' := by
  have hzz : z = z' := by
    have h := congrArg (· % D) heq
    simpa [(flat_digits D (y * W + x) z hz).1,
      (flat_digits D (y' * W + x') z' hz').1] using h
  have hrow : y * W + x = y' * W + x' := by
    have h := congrArg (· / D) heq
    simpa [(flat_digits D (y * W + x) z hz).2,
      (flat_digits D (y' * W + x') z' hz').2] using h
  have hxx : x = x' := by
    have h := congrArg (· % W) hrow
    simpa [(flat_digits W y x hx).1, (flat_digits W y' x' hx').1] using h
  have hyy : y = y' := by
    have hW : 0 < W := lt_of_le_of_lt (Nat.zero_le x) hx
    have h : y * W = y' * W := by omega
    exact Nat.eq_of_mul_eq_mul_right hW h
  exact ⟨hxx, hyy, hzz⟩

/-! ### The triple loop writes each targeted cell exactly once -/

theorem loopZ_spec (W H D : Nat) (tgt : Nat → Nat → Nat → Nat × Nat × Nat)
    (val : Nat → Nat → Nat → ℚ) (t0 : Tensor3)
    (hb : ∀ x, x < W → ∀ y, y < H → ∀ z, z < D →
      tgtIdx t0 tgt x y z < t0.Data.length)
    (hinj : ∀ x, x < W → ∀ y, y < H → ∀ z, z < D →
      ∀ x', x' < W → ∀ y', y' < H → ∀ z', z' < D →
      tgtIdx t0 tgt x y z = tgtIdx t0 tgt x' y' z' → x = x' ∧ y = y' ∧ z = z')
    (x y : Nat) (hx : x < W) (hy : y < H) :
    ∀ t, (t.Width = t0.Width ∧ t.Depth = t0.Depth ∧ t.Data.length = t0.Data.length) →
      ((zLoop D tgt val x y t).Width = t0.Width ∧
        (zLoop D tgt val x y t).Depth = t0.Depth ∧
        (zLoop D tgt val x y t).Data.length = t0.Data.length) ∧
      (∀ idx, (∀ z, z < D → ¬ (idx = tgtIdx t0 tgt x y z)) →
        (zLoop D tgt val x y t).Data.getD idx 0 = t.Data.getD idx 0) ∧
      (∀ z, z < D → ∀ idx, idx = tgtIdx t0 tgt x y z →
        (zLoop D tgt val x y t).Data.getD idx 0 = val x y z) := by
  have h := forN_spec
    (fun z tz => tz.set (tgt x y z).1 (tgt x y z).2.1 (tgt x y z).2.2 (val x y z))
    (fun t => t.Width = t0.Width ∧ t.Depth = t0.Depth ∧ t.Data.length = t0.Data.length)
    (fun z idx => idx = tgtIdx t0 tgt x y z)
    (fun z _ v => v = val x y z)
    D
    (by
      intro z hz t ht
      exact ⟨ht.1, ht.2.1, by simpa [Tensor3.set] using ht.2.2⟩)
    (by
      intro z hz t ht idx hno
      show ((t.set (tgt x y z).1 (tgt x y z).2.1 (tgt x y z).2.2
        (val x y z)).Data.getD idx 0) = t.Data.getD idx 0
      unfold Tensor3.set
      rw [flatIndex_congr ht.1 ht.2.1]
      exact getD_set_ne _ (fun hEq => hno (hEq ▸ rfl))
    )
    (by
      intro z hz t ht idx hidx
      show ((t.set (tgt x y z).1 (tgt x y z).2.1 (tgt x y z).2.2
        (val x y z)).Data.getD idx 0) = val x y z
      unfold Tensor3.set
      rw [flatIndex_congr ht.1 ht.2.1]
      subst hidx
      exact getD_set_self _ (ht.2.2 ▸ hb x hx y hy z hz)
    )
    (by
      intro z hz z' hz' idx h1 h2
      exact (hinj x hx y hy z hz x hx y hy z' hz' (h1 ▸ h2 ▸ rfl)).2.2)
  intro t ht
  obtain ⟨hg, hu, hw⟩ := h t ht
  exact ⟨hg, hu, fun z hz idx hidx => hw z hz idx hidx⟩

theorem xLoop_spec (W H D : Nat) (tgt : Nat → Nat → Nat → Nat × Nat × Nat)
    (val : Nat → Nat → Nat → ℚ) (t0 : Tensor3)
    (hb : ∀ x, x < W → ∀ y, y < H → ∀ z, z < D →
      tgtIdx t0 tgt x y z < t0.Data.length)
    (hinj : ∀ x, x < W → ∀ y, y < H → ∀ z, z < D →
      ∀ x', x' < W → ∀ y', y' < H → ∀ z', z' < D →
      tgtIdx t0 tgt x y z = tgtIdx t0 tgt x' y' z' → x = x' ∧ y = y' ∧ z = z')
    (y : Nat) (hy : y < H) :
    ∀ t, (t.Width = t0.Width ∧ t.Depth = t0.Depth ∧ t.Data.length = t0.Data.length) →
      ((xLoop W D tgt val y t).Width = t0.Width ∧
        (xLoop W D tgt val y t).Depth = t0.Depth ∧
        (xLoop W D tgt val y t).Data.length = t0.Data.length) ∧
      (∀ idx, (∀ x, x < W → ∀ z, z < D → ¬ (idx = tgtIdx t0 tgt x y z)) →
        (xLoop W D tgt val y t).Data.getD idx 0 = t.Data.getD idx 0) ∧
      (∀ x, x < W → ∀ z, z < D →
        (xLoop W D tgt val y t).Data.getD (tgtIdx t0 tgt x y z) 0 = val x y z) := by
  have h := forN_spec
    (fun x tx => zLoop D tgt val x y tx)
    (fun t => t.Width = t0.Width ∧ t.Depth = t0.Depth ∧ t.Data.length = t0.Data.length)
    (fun x idx => ∃ z, z < D ∧ idx = tgtIdx t0 tgt x y z)
    (fun x idx v => ∀ z, z < D → idx = tgtIdx t0 tgt x y z → v = val x y z)
    W
    (by
      intro x hx t ht
      exact (loopZ_spec W H D tgt val t0 hb hinj x y hx hy t ht).1)
    (by
      intro x hx t ht idx hno
      exact (loopZ_spec W H D tgt val t0 hb hinj x y hx hy t ht).2.1 idx
        (fun z hz hEq => hno ⟨z, hz, hEq⟩))
    (by
      intro x hx t ht idx _ z hz hEq
      exact (loopZ_spec W H D tgt val t0 hb hinj x y hx hy t ht).2.2 z hz idx hEq)
    (by
      intro x hx x' hx' idx h1 h2
      obtain ⟨z, hz, hEq⟩ := h1
      obtain ⟨z', hz', hEq'⟩ := h2
      exact (hinj x hx y hy z hz x' hx' y hy z' hz' (hEq.symm.trans hEq')).1)
  intro t ht
  obtain ⟨hg, hu, hw⟩ := h t ht
  refine ⟨hg, ?_, ?_⟩
  · intro idx hno
    refine hu idx ?_
    rintro x hx ⟨z, hz, hEq⟩
    exact hno x hx z hz hEq
  · intro x hx z hz
    exact hw x hx (tgtIdx t0 tgt x y z) ⟨z, hz, rfl⟩ z hz rfl

/-- Every cell targeted by the triple loop ends up holding the value written
for its unique source iteration. -/
theorem loop3_get (W H D : Nat) (tgt : Nat → Nat → Nat → Nat × Nat × Nat)
    (val : Nat → Nat → Nat → ℚ) (t0 : Tensor3)
    (hb : ∀ x, x < W → ∀ y, y < H → ∀ z, z < D →
      tgtIdx t0 tgt x y z < t0.Data.length)
    (hinj : ∀ x, x < W → ∀ y, y < H → ∀ z, z < D →
      ∀ x', x' < W → ∀ y', y' < H → ∀ z', z' < D →
      tgtIdx t0 tgt x y z = tgtIdx t0 tgt x' y' z' → x = x' ∧ y = y' ∧ z = z') :
    ∀ x, x < W → ∀ y, y < H → ∀ z, z < D →
      (loop3 H W D tgt val t0).Data.getD (tgtIdx t0 tgt x y z) 0 = val x y z := by
  have h := forN_spec
    (fun y ty => xLoop W D tgt val y ty)
    (fun t => t.Width = t0.Width ∧ t.Depth = t0.Depth ∧ t.Data.length = t0.Data.length)
    (fun y idx => ∃ x, x < W ∧ ∃ z, z < D ∧ idx = tgtIdx t0 tgt x y z)
    (fun y idx v => ∀ x, x < W → ∀ z, z < D → idx = tgtIdx t0 tgt x y z → v = val x y z)
    H
    (by
      intro y hy t ht
      exact (xLoop_spec W H D tgt val t0 hb hinj y hy t ht).1)
    (by
      intro y hy t ht idx hno
      refine (xLoop_spec W H D tgt val t0 hb hinj y hy t ht).2.1 idx ?_
      intro x hx z hz hEq
      exact hno ⟨x, hx, z, hz, hEq⟩)
    (by
      intro y hy t ht idx _ x hx z hz hEq
      subst hEq
      exact (xLoop_spec W H D tgt val t0 hb hinj y hy t ht).2.2 x hx z hz)
    (by
      intro y hy y' hy' idx h1 h2
      obtain ⟨x, hx, z, hz, hEq⟩ := h1
      obtain ⟨x', hx', z', hz', hEq'⟩ := h2
      exact (hinj x hx y hy z hz x' hx' y' hy' z' hz' (hEq.symm.trans hEq')).2.1)
    t0 ⟨rfl, rfl, rfl⟩
  intro x hx y hy z hz
  have hloop : loop3 H W D tgt val t0 = forN H (fun y ty => xLoop W D tgt val y ty) t0 := rfl
  rw [hloop]
  exact h.2.2 y hy (tgtIdx t0 tgt x y z) ⟨x, hx, z, hz, rfl⟩ x hx z hz rfl

/-- `loop3_get` restated through `Tensor3.get` at the target coordinates. -/
theorem loop3_get_coord (W H D : Nat) (tgt : Nat → Nat → Nat → Nat × Nat × Nat)
    (val : Nat → Nat → Nat → ℚ) (t0 : Tensor3)
    (hb : ∀ x, x < W → ∀ y, y < H → ∀ z, z < D →
      tgtIdx t0 tgt x y z < t0.Data.length)
    (hinj : ∀ x, x < W → ∀ y, y < H → ∀ z, z < D →
      ∀ x', x' < W → ∀ y', y' < H → ∀ z', z' < D →
      tgtIdx t0 tgt x y z = tgtIdx t0 tgt x' y' z' → x = x' ∧ y = y' ∧ z = z') :
    ∀ x, x < W → ∀ y, y < H → ∀ z, z < D →
      (loop3 H W D tgt val t0).get (tgt x y z).1 (tgt x y z).2.1 (tgt x y z).2.2 =
        val x y z := by
  intro x hx y hy z hz
  obtain ⟨hW, _, hD, _⟩ := loop3_dims H W D tgt val t0
  unfold Tensor3.get
  rw [flatIndex_congr hW hD]
  exact loop3_get W H D tgt val t0 hb hinj x hx y hy z hz

/-! ## The forward remap, pointwise -/

/-- After `PropagateForward`, every valid output coordinate holds the value of
the inner output at the remapped coordinate. Shared helper for the claims. -/
theorem propagateForward_get (c : ConvGrowLayer) (x y z : Nat)
    (hlen : c.output.Data.length = c.output.Width * c.output.Height * c.output.Depth)
    (hx : x < c.output.Width) (hy : y < c.output.Height) (hz : z < c.output.Depth) :
    c.PropagateForward.output.get x y z =
      c.convOutput.get (x / c.inverseStride) (y / c.inverseStride)
        (((x % c.inverseStride) + c.inverseStride * (y % c.inverseStride)) *
          c.output.Depth + z) := by
  have hout : c.PropagateForward.output =
      loop3 c.output.Height c.output.Width c.output.Depth
        (fun x y z => (x, y, z))
        (fun x y z => c.convOutput.get (x / c.inverseStride) (y / c.inverseStride)
          (((x % c.inverseStride) + c.inverseStride * (y % c.inverseStride)) *
            c.output.Depth + z))
        c.output := rfl
  rw [hout]
  exact loop3_get_coord c.output.Width c.output.Height c.output.Depth
    (fun x y z => (x, y, z)) _ c.output
    (by
      intro x hx y hy z hz
      unfold tgtIdx Tensor3.flatIndex
      rw [hlen]
      exact flatIndex_lt hx hy hz)
    (by
      intro x hx y hy z hz x' hx' y' hy' z' hz' heq
      unfold tgtIdx Tensor3.flatIndex at heq
      exact flatIndex_inj hx hx' hz hz' heq)
    x hx y hy z hz

/-! ## Claim C1: forward remap -/

/-- C1: for every ConvGrowLayer with inverseStride `s` and every valid output
coordinate `(x,y,z)`, after `PropagateForward` the upsampled output satisfies
`output(x,y,z) = convOutput(x / s, y / s, ((x mod s) + s*(y mod s)) * FilterCount + z)`,
where `FilterCount = output.Depth` and `convOutput` is the inner layer output. -/
theorem C1_propagateForward_remap (c : ConvGrowLayer) (x y z : Nat)
    (hlen : c.output.Data.length = c.output.Width * c.output.Height * c.output.Depth)
    (hx : x < c.output.Width) (hy : y < c.output.Height) (hz : z < c.output.Depth) :
    c.PropagateForward.output.get x y z =
      c.convOutput.get (x / c.inverseStride) (y / c.inverseStride)
        (((x % c.inverseStride) + c.inverseStride * (y % c.inverseStride)) *
          c.output.Depth + z) :=
  propagateForward_get c x y z hlen hx hy hz

/-- C1 witness: the concrete spec scenario. Inner output `2×2×4` with
channel-group values `[10,20,30,40]` at inner cell `(0,0)`, `FilterCount = 1`,
`inverseStride = 2`: the wrapper output holds `(0,0) = 10`, `(1,0) = 20`,
`(0,1) = 30`, `(1,1) = 40`. -/
theorem C1_propagateForward_remap_witness :
    growExample.PropagateForward.output.get 0 0 0 = 10 ∧
    growExample.PropagateForward.output.get 1 0 0 = 20 ∧
    growExample.PropagateForward.output.get 0 1 0 = 30 ∧
    growExample.PropagateForward.output.get 1 1 0 = 40 := by
  refine ⟨?_, ?_, ?_, ?_⟩
  · exact (C1_propagateForward_remap growExample 0 0 0 (by decide) (by decide)
      (by decide) (by decide)).trans (by decide)
  · exact (C1_propagateForward_remap growExample 1 0 0 (by decide) (by decide)
      (by decide) (by decide)).trans (by decide)
  · exact (C1_propagateForward_remap growExample 0 1 0 (by decide) (by decide)
      (by decide) (by decide)).trans (by decide)
  · exact (C1_propagateForward_remap growExample 1 1 0 (by decide) (by decide)
      (by decide) (by decide)).trans (by decide)

/-! ## Claim C9: SetDownstreamGradient -/

/-- C9: `SetDownstreamGradient` returns `false` exactly when the supplied
buffer length differs from the output data length, leaving the layer
unchanged in that case; on a length match it installs the buffer as the
downstream tensor with the output dimensions and returns `true`. -/
theorem C9_setDownstreamGradient (c : ConvGrowLayer) (v : List ℚ) :
    ((c.SetDownstreamGradient v).1 = false ↔ v.length ≠ c.output.Data.length) ∧
    (v.length ≠ c.output.Data.length → c.SetDownstreamGradient v = (false, c)) ∧
    (v.length = c.output.Data.length →
      c.SetDownstreamGradient v = (true, { c with downstream :=
        { Width := c.output.Width, Height := c.output.Height,
          Depth := c.output.Depth, Data := v } })) := by
  unfold ConvGrowLayer.SetDownstreamGradient
  by_cases h : v.length = c.output.Data.length
  · simp [h]
  · simp [h]

/-- C9 witness: a 16-element buffer is accepted by the `4×4×1` example layer
and installed as its downstream tensor; a 1-element buffer is rejected with
the layer left unchanged. -/
theorem C9_setDownstreamGradient_witness :
    growExample.SetDownstreamGradient (List.replicate 16 1) =
      (true, { growExample with downstream :=
        { Width := 4, Height := 4, Depth := 1, Data := List.replicate 16 1 } }) ∧
    growExample.SetDownstreamGradient [1] = (false, growExample) := by
  constructor
  · exact (C9_setDownstreamGradient growExample (List.replicate 16 1)).2.2 (by decide)
  · exact (C9_setDownstreamGradient growExample [1]).2.1 (by decide)

/-! ## Claim C2: the scatter map is injective and forward/backward round-trips -/

theorem subcell_lt {s a b : Nat} (ha : a < s) (hb : b < s) : a + s * b < s * s := by
  calc a + s * b < s + s * b := by omega
    _ = s * (b + 1) := by ring
    _ ≤ s * s := Nat.mul_le_mul_left s hb

theorem chan_lt {s oD q z : Nat} (hq : q < s * s) (hz : z < oD) :
    q * oD + z < s * s * oD := by
  calc q * oD + z < q * oD + oD := by omega
    _ = (q + 1) * oD := by ring
    _ ≤ s * s * oD := Nat.mul_le_mul_right oD hq

/-- Injectivity of the grow-layer coordinate map on flat inner offsets:
if two upsampled coordinates map to the same flat offset of the inner
tensor then they are equal. -/
theorem growMap_inj {s oD iW iD : Nat} (hs : 0 < s) (hiD : iD = s * s * oD)
    {x y z x' y' z' : Nat} (hz : z < oD) (hz' : z' < oD)
    (hxw : x / s < iW) (hxw' : x' / s < iW)
    (heq : ((y / s) * iW + x / s) * iD + (((x % s) + s * (y % s)) * oD + z) =
      ((y' / s) * iW + x' / s) * iD + (((x' % s) + s * (y' % s)) * oD + z')) :
    x = x' ∧ y = y' ∧ z = z' := by
  subst hiD
  have hchan : ((x % s) + s * (y % s)) * oD + z < s * s * oD :=
    chan_lt (subcell_lt (Nat.mod_lt x hs) (Nat.mod_lt y hs)) hz
  have hchan' : ((x' % s) + s * (y' % s)) * oD + z' < s * s * oD :=
    chan_lt (subcell_lt (Nat.mod_lt x' hs) (Nat.mod_lt y' hs)) hz'
  obtain ⟨hdx, hdy, hc⟩ := flatIndex_inj hxw hxw' hchan hchan' heq
  have hzz : z = z' := by
    have h := congrArg (· % oD) hc
    simpa [(flat_digits oD ((x % s) + s * (y % s)) z hz).1,
      (flat_digits oD ((x' % s) + s * (y' % s)) z' hz').1] using h
  have hsub : (x % s) + s * (y % s) = (x' % s) + s * (y' % s) := by
    have h := congrArg (· / oD) hc
    simpa [(flat_digits oD ((x % s) + s * (y % s)) z hz).2,
      (flat_digits oD ((x' % s) + s * (y' % s)) z' hz').2] using h
  have e : ∀ u v : Nat, u % s + s * (v % s) = (v % s) * s + (u % s) := by
    intro u v; ring
  rw [e x y, e x' y'] at hsub
  have hmx : x % s = x' % s := by
    have h := congrArg (· % s) hsub
    simpa [(flat_digits s (y % s) (x % s) (Nat.mod_lt x hs)).1,
      (flat_digits s (y' % s) (x' % s) (Nat.mod_lt x' hs)).1] using h
  have hmy : y % s = y' % s := by
    have h := congrArg (· / s) hsub
    simpa [(flat_digits s (y % s) (x % s) (Nat.mod_lt x hs)).2,
      (flat_digits s (y' % s) (x' % s) (Nat.mod_lt x' hs)).2] using h
  refine ⟨?_, ?_, hzz⟩
  · calc x = s * (x / s) + x % s := (Nat.div_add_mod x s).symm
      _ = s * (x' / s) + x' % s := by rw [hdx, hmx]
      _ = x' := Nat.div_add_mod x' s
  · calc y = s * (y / s) + y % s := (Nat.div_add_mod y s).symm
      _ = s * (y' / s) + y' % s := by rw [hdy, hmy]
      _ = y' := Nat.div_add_mod y' s

/-- After the scatter step of `PropagateBackward`, the inner gradient buffer
holds, at the remapped coordinate of each upsampled coordinate `(x,y,z)`, the
downstream gradient value at `(x,y,z)`. Shared helper for the claims. -/
theorem propagateBackward_get (c : ConvGrowLayer)
    (hs : 0 < c.inverseStride)
    (hW : c.output.Width = c.convDownstream.Width * c.inverseStride)
    (hH : c.output.Height = c.convDownstream.Height * c.inverseStride)
    (hD : c.convDownstream.Depth =
      c.inverseStride * c.inverseStride * c.output.Depth)
    (hcdLen : c.convDownstream.Data.length =
      c.convDownstream.Width * c.convDownstream.Height * c.convDownstream.Depth)
    (x y z : Nat)
    (hx : x < c.output.Width) (hy : y < c.output.Height) (hz : z < c.output.Depth) :
    c.PropagateBackward.convDownstream.get (x / c.inverseStride) (y / c.inverseStride)
        (((x % c.inverseStride) + c.inverseStride * (y % c.inverseStride)) *
          c.output.Depth + z) =
      c.downstream.get x y z := by
  have hcd : c.PropagateBackward.convDownstream =
      loop3 c.output.Height c.output.Width c.output.Depth
        (fun x y z => (x / c.inverseStride, y / c.inverseStride,
          ((x % c.inverseStride) + c.inverseStride * (y % c.inverseStride)) *
            c.output.Depth + z))
        (fun x y z => c.downstream.get x y z)
        c.convDownstream := rfl
  rw [hcd]
  exact loop3_get_coord c.output.Width c.output.Height c.output.Depth _ _
    c.convDownstream
    (by
      intro x hx y hy z hz
      unfold tgtIdx Tensor3.flatIndex
      rw [hcdLen]
      have hxw : x / c.inverseStride < c.convDownstream.Width :=
        (Nat.div_lt_iff_lt_mul hs).2 (hW ▸ hx)
      have hyw : y / c.inverseStride < c.convDownstream.Height :=
        (Nat.div_lt_iff_lt_mul hs).2 (hH ▸ hy)
      have hzw : ((x % c.inverseStride) +
          c.inverseStride * (y % c.inverseStride)) * c.output.Depth + z <
          c.convDownstream.Depth := by
        rw [hD]
        exact chan_lt (subcell_lt (Nat.mod_lt x hs) (Nat.mod_lt y hs)) hz
      exact flatIndex_lt hxw hyw hzw)
    (by
      intro x hx y hy z hz x' hx' y' hy' z' hz' heq
      unfold tgtIdx Tensor3.flatIndex at heq
      exact growMap_inj hs hD.symm.symm hz hz'
        ((Nat.div_lt_iff_lt_mul hs).2 (hW ▸ hx))
        ((Nat.div_lt_iff_lt_mul hs).2 (hW ▸ hx'))
        (by simpa [hD] using heq))
    x hx y hy z hz

/-- C2: the coordinate mapping of the grow layer is a bijection between
upsampled-output coordinates and inner coordinates: no two output coordinates
scatter to the same flat inner offset, the scatter step of
`PropagateBackward` writes `downstream(x,y,z)` to inner coordinate
`(x / s, y / s, ((x mod s) + s*(y mod s))*FilterCount + z)`, and running the
forward remap over the scattered buffer recovers every original value
element-for-element. -/
theorem C2_scatter_bijection_roundtrip (c : ConvGrowLayer)
    (hs : 0 < c.inverseStride)
    (hW : c.output.Width = c.convDownstream.Width * c.inverseStride)
    (hH : c.output.Height = c.convDownstream.Height * c.inverseStride)
    (hD : c.convDownstream.Depth =
      c.inverseStride * c.inverseStride * c.output.Depth)
    (hcdLen : c.convDownstream.Data.length =
      c.convDownstream.Width * c.convDownstream.Height * c.convDownstream.Depth)
    (hoLen : c.output.Data.length =
      c.output.Width * c.output.Height * c.output.Depth) :
    (∀ x, x < c.output.Width → ∀ y, y < c.output.Height → ∀ z, z < c.output.Depth →
      ∀ x', x' < c.output.Width → ∀ y', y' < c.output.Height →
      ∀ z', z' < c.output.Depth →
      c.convDownstream.flatIndex (x / c.inverseStride) (y / c.inverseStride)
        (((x % c.inverseStride) + c.inverseStride * (y % c.inverseStride)) *
          c.output.Depth + z) =
      c.convDownstream.flatIndex (x' / c.inverseStride) (y' / c.inverseStride)
        (((x' % c.inverseStride) + c.inverseStride * (y' % c.inverseStride)) *
          c.output.Depth + z') →
      x = x' ∧ y = y' ∧ z = z') ∧
    (∀ x, x < c.output.Width → ∀ y, y < c.output.Height → ∀ z, z < c.output.Depth →
      c.PropagateBackward.convDownstream.get (x / c.inverseStride)
          (y / c.inverseStride)
          (((x % c.inverseStride) + c.inverseStride * (y % c.inverseStride)) *
            c.output.Depth + z) =
        c.downstream.get x y z) ∧
    (∀ x, x < c.output.Width → ∀ y, y < c.output.Height → ∀ z, z < c.output.Depth →
      ({ c with convOutput := c.PropagateBackward.convDownstream }
          : ConvGrowLayer).PropagateForward.output.get x y z =
        c.downstream.get x y z) := by
  refine ⟨?_, ?_, ?_⟩
  · intro x hx y hy z hz x' hx' y' hy' z' hz' heq
    unfold Tensor3.flatIndex at heq
    exact growMap_inj hs hD.symm.symm hz hz'
      ((Nat.div_lt_iff_lt_mul hs).2 (hW ▸ hx))
      ((Nat.div_lt_iff_lt_mul hs).2 (hW ▸ hx'))
      (by simpa [hD] using heq)
  · intro x hx y hy z hz
    exact propagateBackward_get c hs hW hH hD hcdLen x y z hx hy hz
  · intro x hx y hy z hz
    have hfw := propagateForward_get
      { c with convOutput := c.PropagateBackward.convDownstream }
      x y z hoLen hx hy hz
    rw [hfw]
    exact propagateBackward_get c hs hW hH hD hcdLen x y z hx hy hz

/-- C2 witness: inner output `1×1×4`, wrapper `2×2×1`, downstream gradient
`[1,2,3,4]`: the scattered inner buffer holds `4` at inner channel `3`, and
the forward remap over the scattered buffer recovers the value `4` at
wrapper coordinate `(1,1)`. -/
theorem C2_scatter_bijection_roundtrip_witness :
    growExample2.PropagateBackward.convDownstream.get 0 0 3 = 4 ∧
    ({ growExample2 with
        convOutput := growExample2.PropagateBackward.convDownstream }
      : ConvGrowLayer).PropagateForward.output.get 1 1 0 = 4 := by
  have h := C2_scatter_bijection_roundtrip growExample2 (by decide) (by decide)
    (by decide) (by decide) (by decide) (by decide)
  constructor
  · exact (h.2.1 1 (by decide) 1 (by decide) 0 (by decide)).trans (by decide)
  · exact (h.2.2 1 (by decide) 1 (by decide) 0 (by decide)).trans (by decide)

/-! ## Gradient cache and Batcher lemmas -/

theorem zipWith_add_getD : ∀ (a b : List ℚ), a.length = b.length →
    ∀ i, i < a.length →
    (List.zipWith (· + ·) a b).getD i 0 = a.getD i 0 + b.getD i 0
  | [], _, _, i, hi => absurd hi (by simp)
  | _ :: _, [], h, _, _ => by simp at h
  | x :: xs, y :: ys, h, 0, hi => by simp [List.getD]
  | x :: xs, y :: ys, h, i + 1, hi => by
    simpa using zipWith_add_getD xs ys (by simpa using h) i (by simpa using hi)

theorem zipWith_zero_add : ∀ (n : Nat) (v : List ℚ), v.length = n →
    List.zipWith (· + ·) (List.replicate n 0) v = v
  | 0, [], _ => rfl
  | 0, _ :: _, h => by simp at h
  | _ + 1, [], h => by simp at h
  | n + 1, x :: xs, h => by
    simpa [List.replicate] using zipWith_zero_add n xs (by simpa using h)

/-- Under the pool invariant, `Alloc` returns the zero buffer of the
parameter count and preserves the invariant. -/
theorem Alloc_spec (g : gradientCache)
    (hpool : ∀ b ∈ g.gradients, b.length = g.varCount) :
    g.Alloc.1 = List.replicate g.varCount 0 ∧
    g.Alloc.2.varCount = g.varCount ∧
    ∀ b ∈ g.Alloc.2.gradients, b.length = g.varCount := by
  unfold gradientCache.Alloc
  by_cases h : g.gradients.isEmpty
  · rw [if_pos h]
    exact ⟨rfl, rfl, hpool⟩
  · rw [if_neg h]
    have hne : g.gradients ≠ [] := by simpa using h
    refine ⟨?_, rfl, ?_⟩
    · rw [List.getLast?_eq_getLast_of_ne_nil hne, Option.getD_some, List.map_const']
      rw [hpool _ (List.getLast_mem hne)]
    · intro b hb
      exact hpool b (List.dropLast_subset g.gradients hb)

/-- Under the pool invariant, `fulfillRequest` returns exactly the
per-sample gradient of the external collaborators. -/
theorem fulfillRequest_spec (gradFn : List ℚ → List ℚ → List ℚ)
    (g : gradientCache) (input expected : List ℚ)
    (hpool : ∀ b ∈ g.gradients, b.length = g.varCount)
    (hlen : (gradFn input expected).length = g.varCount) :
    fulfillRequest gradFn g input expected = (gradFn input expected, g.Alloc.2) := by
  unfold fulfillRequest
  obtain ⟨h1, _, _⟩ := Alloc_spec g hpool
  simp only [h1]
  rw [zipWith_zero_add g.varCount _ hlen]

theorem batchLoop_spec (gradFn : List ℚ → List ℚ → List ℚ) :
    ∀ (rest : List (List ℚ × List ℚ)) (acc : List ℚ) (g : gradientCache),
    (∀ b ∈ g.gradients, b.length = g.varCount) →
    acc.length = g.varCount →
    (∀ s ∈ rest, (gradFn s.1 s.2).length = g.varCount) →
    (batchLoop gradFn rest acc g).1.length = g.varCount ∧
    (batchLoop gradFn rest acc g).2.varCount = g.varCount ∧
    ∀ i, i < g.varCount →
      (batchLoop gradFn rest acc g).1.getD i 0 =
        acc.getD i 0 + (rest.map (fun s => (gradFn s.1 s.2).getD i 0)).sum := by
  intro rest
  induction rest with
  | nil =>
    intro acc g _ hacc _
    exact ⟨hacc, rfl, by simp [batchLoop]⟩
  | cons s rest ih =>
    intro acc g hpool hacc hrest
    have hslen : (gradFn s.1 s.2).length = g.varCount := hrest s (by simp)
    have hfu := fulfillRequest_spec gradFn g s.1 s.2 hpool hslen
    have hstep : batchLoop gradFn (s :: rest) acc g =
        batchLoop gradFn rest (List.zipWith (· + ·) acc (gradFn s.1 s.2))
          ((g.Alloc.2).Free (gradFn s.1 s.2)) := by
      show batchLoop gradFn rest
          (List.zipWith (· + ·) acc (fulfillRequest gradFn g s.1 s.2).1)
          ((fulfillRequest gradFn g s.1 s.2).2.Free
            (fulfillRequest gradFn g s.1 s.2).1) = _
      rw [hfu]
    rw [hstep]
    obtain ⟨_, hA2, hA3⟩ := Alloc_spec g hpool
    have hvc : ((g.Alloc.2).Free (gradFn s.1 s.2)).varCount = g.varCount := by
      simp [gradientCache.Free, hA2]
    have hpool2 : ∀ b ∈ ((g.Alloc.2).Free (gradFn s.1 s.2)).gradients,
        b.length = ((g.Alloc.2).Free (gradFn s.1 s.2)).varCount := by
    -- the freed per-sample buffer also has the parameter count length
      intro b hb
      rw [hvc]
      simp only [gradientCache.Free, List.mem_append, List.mem_singleton] at hb
      rcases hb with hb | hb
      · exact hA3 b hb
      · rw [hb]
        exact hslen
    have haccLen : (List.zipWith (· + ·) acc (gradFn s.1 s.2)).length =
        g.varCount := by
      rw [List.length_zipWith, hacc, hslen, Nat.min_self]
    obtain ⟨ihl, ihv, ihp⟩ := ih (List.zipWith (· + ·) acc (gradFn s.1 s.2))
      ((g.Alloc.2).Free (gradFn s.1 s.2)) hpool2
      (by rw [hvc]; exact haccLen)
      (by intro t ht; rw [hvc]; exact hrest t (by simp [ht]))
    refine ⟨by rw [ihl, hvc], by rw [ihv, hvc], ?_⟩
    intro i hi
    rw [ihp i (by rw [hvc]; exact hi)]
    rw [zipWith_add_getD acc (gradFn s.1 s.2) (by rw [hacc, hslen]) i
      (by rw [hacc]; exact hi)]
    simp [add_assoc]

/-! ## Claim C3 (code bug in AllocR) -/

/-- C3 (code bug): `AllocR` indexes the R pool with the PLAIN pool length,
`g.rGradients[len(g.gradients)-1]`. With the plain pool empty and the R pool
holding one buffer it panics on index `-1` instead of popping the R pool;
with plain pool length 1 and two R buffers it returns (zeroed) the FIRST R
buffer while truncating the pool from the END, so the very buffer handed out
stays in the free pool. -/
theorem C3_allocR_bug :
    ((⟨1, [], [[5]]⟩ : gradientCache).AllocR = AllocRResult.panics ∧
      (⟨1, [], [[5]]⟩ : gradientCache).rGradients.isEmpty = false) ∧
    ((⟨1, [[9]], [[5], [7]]⟩ : gradientCache).AllocR =
      AllocRResult.ok [0] ⟨1, [[9]], [[5]]⟩) := by decide

/-! ## Claim C4 (code bug in Start) -/

/-- C4 (code bug): `Start` computes `routineCount = min(batchSize,
GOMAXPROCS)` but the launch loop at line 89 runs `b.batchSize` times: with
batch size 4 and 2 available processors it launches 4 worker goroutines,
exceeding the claimed bound `min(4,2) = 2`. The below-threshold branch does
hold: when the computed count is below 2, no workers launch and the request
channel stays unset. -/
theorem C4_start_bug :
    BatcherStart 4 2 = (4, true) ∧ Nat.min 4 2 = 2 ∧
    BatcherStart 1 8 = (0, false) ∧ BatcherStart 8 1 = (0, false) := by decide

/-! ## Claim C5: sequential batch gradient is the elementwise sum -/

/-- C5: on an unstarted (single-threaded) Batcher, `BatchGradient` of a
non-empty sample set equals, elementwise, the sum of the per-sample
gradients produced by `fulfillRequest`, accumulated sequentially. -/
theorem C5_batchGradient_sum (gradFn : List ℚ → List ℚ → List ℚ)
    (g : gradientCache) (samples : List (List ℚ × List ℚ))
    (hne : samples ≠ [])
    (hpool : ∀ b ∈ g.gradients, b.length = g.varCount)
    (hlen : ∀ s ∈ samples, (gradFn s.1 s.2).length = g.varCount) :
    (BatchGradient gradFn g samples).1.length = g.varCount ∧
    ∀ i, i < g.varCount →
      (BatchGradient gradFn g samples).1.getD i 0 =
        (samples.map (fun s => (gradFn s.1 s.2).getD i 0)).sum := by
  match samples, hne with
  | s :: rest, _ =>
    have hslen : (gradFn s.1 s.2).length = g.varCount := hlen s (by simp)
    have hfu := fulfillRequest_spec gradFn g s.1 s.2 hpool hslen
    have hstep : BatchGradient gradFn g (s :: rest) =
        batchLoop gradFn rest (gradFn s.1 s.2) g.Alloc.2 := by
      show batchLoop gradFn rest (fulfillRequest gradFn g s.1 s.2).1
          (fulfillRequest gradFn g s.1 s.2).2 = _
      rw [hfu]
    rw [hstep]
    obtain ⟨_, hA2, hA3⟩ := Alloc_spec g hpool
    obtain ⟨ihl, _, ihp⟩ := batchLoop_spec gradFn rest (gradFn s.1 s.2) g.Alloc.2
      (by intro b hb; rw [hA2]; exact hA3 b hb)
      (by rw [hA2]; exact hslen)
      (by intro t ht; rw [hA2]; exact hlen t (by simp [ht]))
    constructor
    · rw [ihl, hA2]
    · intro i hi
      rw [ihp i (by rw [hA2]; exact hi)]
      simp

/-- C5 witness: a batch of 3 one-parameter samples whose per-sample gradient
is the sample input itself sums to `1 + 2 + 3 = 6`. -/
theorem C5_batchGradient_sum_witness :
    (BatchGradient (fun a _ => a) ⟨1, [], []⟩
      [([1], [0]), ([2], [0]), ([3], [0])]).1.getD 0 0 = 6 := by
  have h := C5_batchGradient_sum (fun a _ => a) ⟨1, [], []⟩
    [([1], [0]), ([2], [0]), ([3], [0])] (by decide) (by decide) (by decide)
  exact (h.2 0 (by decide)).trans (by norm_num)

/-! ## Claim C6: buffers returned by Alloc are zeroed -/

/-- C6: every buffer returned by `gradientCache.Alloc` has all entries zero,
both when freshly allocated (empty pool) and when a previously freed buffer
is reused; and in the reuse case the zeroing step comes after the unlock in
the event order of the call. -/
theorem C6_alloc_zeroed (g : gradientCache) :
    (∀ q ∈ g.Alloc.1, q = 0) ∧
    (g.gradients.isEmpty = false →
      AllocTrace g =
        [AllocEvent.lockGrads, AllocEvent.popGrad, AllocEvent.unlockGrads,
          AllocEvent.zeroGrad]) := by
  constructor
  · intro q hq
    unfold gradientCache.Alloc at hq
    by_cases h : g.gradients.isEmpty
    · rw [if_pos h] at hq
      exact List.eq_of_mem_replicate hq
    · rw [if_neg h] at hq
      rcases List.mem_map.1 hq with ⟨a, _, ha⟩
      simpa using ha.symm
  · intro h
    unfold AllocTrace
    rw [if_neg (by simp [h])]

/-- C6 witness: reusing the freed buffer `[5, 7]` returns `[0, 0]`, and the
zeroing event follows the unlock event. -/
theorem C6_alloc_zeroed_witness :
    ((⟨2, [[5, 7]], []⟩ : gradientCache).Alloc.1.getD 0 0 = 0) ∧
    AllocTrace ⟨2, [[5, 7]], []⟩ =
      [AllocEvent.lockGrads, AllocEvent.popGrad, AllocEvent.unlockGrads,
        AllocEvent.zeroGrad] := by
  have h := C6_alloc_zeroed ⟨2, [[5, 7]], []⟩
  exact ⟨h.1 _ (by decide), h.2 (by decide)⟩

/-! ## Serialization lemmas -/

/-- Reading back four little-endian digits of a value below `2^32` recovers
the value and leaves the rest of the stream. -/
theorem u32le_decode (n : Nat) (h : n < 4294967296) (rest : List Nat) :
    readU32 (u32le n ++ rest) = some (n, rest) := by
  have e1 := Nat.div_add_mod n 256
  have e2 := Nat.div_add_mod (n / 256) 256
  have e3 := Nat.div_add_mod (n / 65536) 256
  have d1 : n / 256 / 256 = n / 65536 := by
    rw [Nat.div_div_eq_div_mul]
  have d2 : n / 65536 / 256 = n / 16777216 := by
    rw [Nat.div_div_eq_div_mul]
  rw [d1] at e2
  rw [d2] at e3
  have hq3 : n / 16777216 < 256 := by
    rw [Nat.div_lt_iff_lt_mul (by norm_num)]
    omega
  have e5 : n / 16777216 % 256 = n / 16777216 := Nat.mod_eq_of_lt hq3
  have hm1 : n % 256 < 256 := Nat.mod_lt n (by norm_num)
  have hm2 : n / 256 % 256 < 256 := Nat.mod_lt _ (by norm_num)
  have hm3 : n / 65536 % 256 < 256 := Nat.mod_lt _ (by norm_num)
  have key : n % 256 + 256 * (n / 256 % 256 + 256 * (n / 65536 % 256 +
      256 * (n / 16777216 % 256))) = n := by
    omega
  show some (n % 256 + 256 * (n / 256 % 256 + 256 * (n / 65536 % 256 +
      256 * (n / 16777216 % 256))), rest) = some (n, rest)
  rw [key]

/-- The spec-modelled inner layer stream round-trips. -/
theorem deserializeConvLayer_roundtrip (c : ConvLayerS)
    (hf : c.filterCount < 4294967296) (hw : c.outWidth < 4294967296)
    (hh : c.outHeight < 4294967296) :
    DeserializeConvLayer (serializeConvLayer c) = some c := by
  have h3 : readU32 (u32le c.outHeight) = some (c.outHeight, []) := by
    simpa using u32le_decode c.outHeight hh []
  simp only [DeserializeConvLayer, serializeConvLayer, List.append_assoc,
    u32le_decode c.filterCount hf, u32le_decode c.outWidth hw, h3]
  simp

/-! ## Claim C7: serialize → deserialize round-trip -/

/-- C7: the serialized stream is the 4-byte little-endian stride followed by
the inner layer bytes, and deserializing it yields a layer with identical
stride, the identical inner layer (hence byte-identical inner serialized
stream), and `FilterCount` derived as `innerFilterCount / inverseStride²`. -/
theorem C7_serialize_roundtrip (c : ConvGrowS)
    (hs1 : 1 ≤ c.inverseStride)
    (hs2 : c.inverseStride * c.inverseStride < 4294967296)
    (hf : c.convLayer.filterCount < 4294967296)
    (hw : c.convLayer.outWidth < 4294967296)
    (hh : c.convLayer.outHeight < 4294967296) :
    c.Serialize = u32le c.inverseStride ++ serializeConvLayer c.convLayer ∧
    DeserializeConvGrowLayer c.Serialize =
      GrowDeserResult.ok
        { inverseStride := c.inverseStride, convLayer := c.convLayer,
          filterCount := c.convLayer.filterCount /
            (c.inverseStride * c.inverseStride) } ∧
    (∀ l, DeserializeConvGrowLayer c.Serialize = GrowDeserResult.ok l →
      l.inverseStride = c.inverseStride ∧
      serializeConvLayer l.convLayer = serializeConvLayer c.convLayer ∧
      l.filterCount = c.convLayer.filterCount /
        (c.inverseStride * c.inverseStride)) := by
  have hsm : c.inverseStride < 4294967296 := by
    have : c.inverseStride ≤ c.inverseStride * c.inverseStride :=
      Nat.le_mul_of_pos_left c.inverseStride hs1
    omega
  have hmod : (c.inverseStride * c.inverseStride) % 4294967296 =
      c.inverseStride * c.inverseStride := Nat.mod_eq_of_lt hs2
  have hne : c.inverseStride * c.inverseStride ≠ 0 :=
    Nat.mul_ne_zero (by omega) (by omega)
  have hdeser : DeserializeConvGrowLayer c.Serialize =
      GrowDeserResult.ok
        { inverseStride := c.inverseStride, convLayer := c.convLayer,
          filterCount := c.convLayer.filterCount /
            (c.inverseStride * c.inverseStride) } := by
    simp only [DeserializeConvGrowLayer, ConvGrowS.Serialize,
      u32le_decode c.inverseStride hsm,
      deserializeConvLayer_roundtrip c.convLayer hf hw hh,
      hmod]
    rw [if_neg hne]
  refine ⟨rfl, hdeser, ?_⟩
  intro l hl
  rw [hdeser] at hl
  cases hl
  exact ⟨rfl, rfl, rfl⟩

/-- C7 witness: stride 2, inner layer with 8 filters and `5×5` output:
deserializing the serialized stream recovers stride 2, the same inner
layer, and derived FilterCount `8 / 4 = 2`. -/
theorem C7_serialize_roundtrip_witness :
    DeserializeConvGrowLayer
        (ConvGrowS.Serialize ⟨2, ⟨8, 5, 5⟩, 2⟩) =
      GrowDeserResult.ok ⟨2, ⟨8, 5, 5⟩, 2⟩ := by
  have h := C7_serialize_roundtrip ⟨2, ⟨8, 5, 5⟩, 2⟩ (by decide) (by decide)
    (by decide) (by decide) (by decide)
  exact h.2.1.trans (by decide)

/-! ## Claim C8: construction invariants -/

/-- C8: for every configuration with `inverseStride ≥ 1`, the constructed
wrapper satisfies `output.Width = inner.output.Width * inverseStride` and
likewise for Height, `output.Depth = FilterCount`, the inner layer holds
`inverseStride² * FilterCount` filters, and the inner downstream-gradient
slot is wired to the backing buffer of the wrapper `convDownstream`
tensor. -/
theorem C8_newConvGrowLayer_invariants (p : ConvGrowParams) (st : AllocState)
    (hs : 1 ≤ p.InverseStride) :
    (NewConvGrowLayer p st).1.output.Width =
      (NewConvGrowLayer p st).1.convLayer.output.Width * p.InverseStride ∧
    (NewConvGrowLayer p st).1.output.Height =
      (NewConvGrowLayer p st).1.convLayer.output.Height * p.InverseStride ∧
    (NewConvGrowLayer p st).1.output.Depth = p.conv.FilterCount ∧
    (NewConvGrowLayer p st).1.convLayer.filterCount =
      p.InverseStride * p.InverseStride * p.conv.FilterCount ∧
    (NewConvGrowLayer p st).1.convLayer.downstreamRef =
      some (NewConvGrowLayer p st).1.convDownstream.dataRef := by
  refine ⟨?_, ?_, ?_, ?_, ?_⟩
  · simp [NewConvGrowLayer, NewConvLayer, newTensorRef,
      ConvLayerRef.SetDownstreamGradient]
  · simp [NewConvGrowLayer, NewConvLayer, newTensorRef,
      ConvLayerRef.SetDownstreamGradient]
  · simp [NewConvGrowLayer, NewConvLayer, newTensorRef,
      ConvLayerRef.SetDownstreamGradient]
  · simp [NewConvGrowLayer, NewConvLayer, newTensorRef,
      ConvLayerRef.SetDownstreamGradient]
    try ring
  · simp [NewConvGrowLayer, NewConvLayer, newTensorRef,
      ConvLayerRef.SetDownstreamGradient]

/-- C8 witness: stride 2 over a base configuration with 3 filters and `5×7`
spatial output: the wrapper output is `10×14×3`, the inner layer holds 12
filters, and its downstream slot points at buffer id 2 — the backing buffer
of the wrapper `convDownstream` tensor. -/
theorem C8_newConvGrowLayer_invariants_witness :
    (NewConvGrowLayer ⟨⟨3, 5, 7⟩, 2⟩ ⟨0⟩).1.output.Width = 10 ∧
    (NewConvGrowLayer ⟨⟨3, 5, 7⟩, 2⟩ ⟨0⟩).1.output.Height = 14 ∧
    (NewConvGrowLayer ⟨⟨3, 5, 7⟩, 2⟩ ⟨0⟩).1.output.Depth = 3 ∧
    (NewConvGrowLayer ⟨⟨3, 5, 7⟩, 2⟩ ⟨0⟩).1.convLayer.filterCount = 12 ∧
    (NewConvGrowLayer ⟨⟨3, 5, 7⟩, 2⟩ ⟨0⟩).1.convLayer.downstreamRef = some 2 := by
  have h := C8_newConvGrowLayer_invariants ⟨⟨3, 5, 7⟩, 2⟩ ⟨0⟩ (by decide)
  exact ⟨h.1.trans (by decide), h.2.1.trans (by decide), h.2.2.1.trans (by decide),
    h.2.2.2.1.trans (by decide), h.2.2.2.2.trans (by decide)⟩

/-! ## Claim C10: zero stride divides by zero -/

/-- C10: an input whose first four bytes decode to `inverseStride = 0`
followed by a well-formed inner payload makes `DeserializeConvGrowLayer`
neither return a decoding error nor a layer: the unguarded division
`len(filters) / (0*0)` is a Go run-time panic. The second conjunct shows
the same inner payload is well-formed on its own. -/
theorem C10_zero_stride_panics :
    DeserializeConvGrowLayer
      (u32le 0 ++ serializeConvLayer ⟨4, 3, 3⟩) = GrowDeserResult.panics ∧
    DeserializeConvLayer (serializeConvLayer ⟨4, 3, 3⟩) = some ⟨4, 3, 3⟩ := by
  decide

end WeakAI
